import Mathlib

/-!
Verification of the xmidt-org/retry library against its natural-language
specification.  The Go source is shallowly embedded: `time.Duration` values
are modelled as integers (nanoseconds), `float64` configuration values
(jitter, multiplier) as rationals with the Go float-to-integer conversion
modelled as truncation toward zero, Go errors as an inductive chain type
supporting `errors.As` style unwrapping, and the runner loop as a
fuel-bounded recursion over explicit oracles for the task, the policy,
the cancellation scope, and the timer wait.
-/

namespace RetryVerify

/-! ## Go error model

A Go error value is modelled as a node that may itself implement the
`ShouldRetryable` interface (field `shouldRetrySignal`), may itself expose a
`Temporary() bool` method (field `temporarySignal`), and may wrap a cause
retrievable with `Unwrap` (field `cause`).  `errors.As` walks the chain from
the outermost error inward, stopping at the first node implementing the
target interface. -/

inductive GoError : Type where
  | mk (shouldRetrySignal : Option Bool) (temporarySignal : Option Bool)
      (cause : Option GoError) : GoError

def GoError.deq : (a b : GoError) → Decidable (a = b)
  | GoError.mk s1 t1 c1, GoError.mk s2 t2 c2 =>
    match decEq s1 s2 with
    | Decidable.isFalse h => Decidable.isFalse (fun he => by cases he; exact h rfl)
    | Decidable.isTrue hs =>
      match decEq t1 t2 with
      | Decidable.isFalse h => Decidable.isFalse (fun he => by cases he; exact h rfl)
      | Decidable.isTrue ht =>
        match c1, c2 with
        | none, none => Decidable.isTrue (by rw [hs, ht])
        | none, some _ => Decidable.isFalse (fun he => by cases he)
        | some _, none => Decidable.isFalse (fun he => by cases he)
        | some x, some y =>
          match GoError.deq x y with
          | Decidable.isTrue hxy => Decidable.isTrue (by rw [hs, ht, hxy])
          | Decidable.isFalse h =>
            Decidable.isFalse (fun he => by cases he; exact h rfl)

instance : DecidableEq GoError := GoError.deq

/-- The result of `errors.As(err, &sr)` for `sr : ShouldRetryable`:
`some b` when some node of the chain implements the interface (outermost
first) with signal `b`, `none` otherwise. -/
def findShouldRetry : GoError → Option Bool
  | GoError.mk (some b) _ _ => some b
  | GoError.mk none _ (some c) => findShouldRetry c
  | GoError.mk none _ none => none

/-- The result of `errors.As(err, &t)` for the anonymous
`interface \x7b Temporary() bool \x7d`: `some b` when some node of the chain
supplies `Temporary`, `none` otherwise. -/
def findTemporary : GoError → Option Bool
  | GoError.mk _ (some b) _ => some b
  | GoError.mk _ none (some c) => findTemporary c
  | GoError.mk _ none none => none

/-- The wrapper produced by `SetRetryable`: it carries the given retryability
signal and unwraps to the original error. -/
def SetRetryable (err : Option GoError) (retryable : Bool) : GoError :=
  GoError.mk (some retryable) none err

/-! ## CheckRetry (shouldRetry.go, current revision)

Embeds:

```go
func CheckRetry[V any](result V, err error, p ShouldRetry[V]) bool {
    var sr ShouldRetryable
    switch {
    case err == nil:
        return false
    case p != nil:
        return p(result, err)
    case errors.As(err, &sr):
        return sr.ShouldRetry()
    default:
        return true
    }
}
```

A `ShouldRetry[V]` predicate is `func(V, error) bool`; the error argument is
nullable, hence `Option GoError`. -/

def ShouldRetryPred (V : Type) : Type := V → Option GoError → Bool

def CheckRetry {V : Type} (result : V) (err : Option GoError)
    (p : Option (ShouldRetryPred V)) : Bool :=
  match err with
  | none => false
  | some e =>
    match p with
    | some pred => pred result (some e)
    | none =>
      match findShouldRetry e with
      | some b => b
      | none => true

/-- Specification-side restatement of the retryability decision, written
from the spec sentence: nil error first, then the caller predicate, then the
in-error retryability signal found anywhere in the cause chain, and true as
the default.  Compared against `CheckRetry`, which is embedded from the
source. -/
def CheckRetrySpec {V : Type} (result : V) (err : Option GoError)
    (p : Option (ShouldRetryPred V)) : Bool :=
  match err with
  | none => false
  | some e =>
    match p with
    | some pred => pred result (some e)
    | none => (findShouldRetry e).getD true

/-! ## NewShouldRetry (retryhttp/shouldRetry.go)

Embeds:

```go
func NewShouldRetry(statusCodes ...int) retry.ShouldRetry[*http.Response] {
    codes := make(map[int]bool, len(statusCodes))
    for _, sc := range statusCodes {
        codes[sc] = true
    }
    return func(response *http.Response, err error) bool {
        var t temporary
        switch {
        case err == nil && response != nil:
            return codes[response.StatusCode]
        case errors.As(err, &t):
            return t.Temporary()
        default:
            return false
        }
    }
}
```

Responses are modelled by their status code together with an optional body
state (used by the cleanup observer model below). -/

structure BodyState where
  drained : Bool
  closed : Bool
deriving DecidableEq

structure HTTPResponse where
  statusCode : Int
  body : Option BodyState
deriving DecidableEq

/-- Membership lookup in the `codes` map built by `NewShouldRetry`: a Go map
read returns `false` for an absent key. -/
def codesContain (statusCodes : List Int) (sc : Int) : Bool :=
  statusCodes.contains sc

/-- `errors.As` applied to a nullable error: `errors.As(nil, ...)` reports
no match. -/
def findTemporaryOpt : Option GoError → Option Bool
  | none => none
  | some e => findTemporary e

def NewShouldRetry (statusCodes : List Int) :
    ShouldRetryPred (Option HTTPResponse) :=
  fun response err =>
    match err, response with
    | none, some r => codesContain statusCodes r.statusCode
    | _, _ =>
      match findTemporaryOpt err with
      | some b => b
      | none => false

/-- Specification-side restatement of the HTTP retry predicate, written from
the spec sentence: a present error with a temporary signal decides by that
signal; a present error without one forbids the retry; an absent response
forbids the retry; otherwise the status code set decides. -/
def NewShouldRetrySpec (statusCodes : List Int) :
    ShouldRetryPred (Option HTTPResponse) :=
  fun response err =>
    match err with
    | some e =>
      match findTemporary e with
      | some b => b
      | none => false
    | none =>
      match response with
      | none => false
      | some r => codesContain statusCodes r.statusCode

/-! ## Policy model

`time.Duration` is an `int64` count of nanoseconds, modelled as `Int`.
`float64` configuration fields (jitter, multiplier) are modelled as `ℚ`;
the Go conversion `time.Duration(f)` of a float to a duration truncates
toward zero, modelled by `goTrunc`.  The policy context is represented by
the value its `Err()` method currently reports (`none` while the scope is
live); the claims below only concern call sequences during which that value
is fixed. -/

/-- Go conversion of a numeric value to an integer type: truncation toward
zero. -/
def goTrunc (q : ℚ) : Int :=
  q.num.tdiv q.den

/-- Common state of `constant` and `exponential` policies
(`corePolicy` in the source). -/
structure CorePolicy where
  maxRetries : Int
  retryCount : Int
  ctxErr : Option GoError

/-- Embeds `corePolicy.withinLimits`: the retry-count limit is checked
first, then the context error. -/
def withinLimits (cp : CorePolicy) : Bool :=
  if cp.maxRetries > 0 ∧ cp.retryCount ≥ cp.maxRetries then false
  else if cp.ctxErr ≠ none then false
  else true

/-- The `never` policy: `Next` always reports `(0, false)`. -/
def neverNext : Int × Bool := (0, false)

/-- The `constant` policy state. -/
structure Constant where
  core : CorePolicy
  interval : Int

/-- Embeds `constant.Next`. -/
def Constant.next (c : Constant) : Constant × Int × Bool :=
  if ¬ withinLimits c.core then (c, 0, false)
  else ({ c with core := { c.core with retryCount := c.core.retryCount + 1 } },
    c.interval, true)

/-- The `exponential` policy state.  `rand n` models the draw
`rand.Int63n(n)`, contracted to lie in `[0, n)`. -/
structure Exponential where
  core : CorePolicy
  rand : Int → Int
  initial : Int
  previous : Int
  jitter : ℚ
  multiplier : ℚ
  maxInterval : Int

/-- The clamp `if maxInterval > 0 && next > maxInterval then maxInterval`
that ends both `nextBaseInterval` and `jitterize`. -/
def clampToMax (maxInterval next : Int) : Int :=
  if maxInterval > 0 ∧ next > maxInterval then maxInterval else next

/-- Embeds `exponential.nextBaseInterval`: on the first call (previous
not yet positive) the initial interval is returned; afterwards the previous
base is multiplied by the multiplier when that exceeds 1.0 and clamped to
`maxInterval` when that is positive.  The computed base is stored back into
`previous`. -/
def nextBaseInterval (e : Exponential) : Exponential × Int :=
  let base :=
    if e.previous > 0 then
      let b1 := e.previous
      let b2 := if e.multiplier > 1 then goTrunc ((b1 : ℚ) * e.multiplier) else b1
      clampToMax e.maxInterval b2
    else e.initial
  ({ e with previous := base }, base)

/-- Embeds `exponential.jitterize`: when jitter is positive, draw
`r ∈ [0, 2*delta+1)` with `delta = trunc(base*jitter)` and move to
`base - delta + r`; in every case the result is clamped to `maxInterval`
when that is positive. -/
def jitterize (e : Exponential) (base : Int) : Int :=
  clampToMax e.maxInterval
    (if e.jitter > 0 then
      let delta := goTrunc ((base : ℚ) * e.jitter)
      base - delta + e.rand (2 * delta + 1)
    else base)

/-- Embeds `exponential.Next`. -/
def Exponential.next (e : Exponential) : Exponential × Int × Bool :=
  if ¬ withinLimits e.core then (e, 0, false)
  else
    let e1 := { e with core := { e.core with retryCount := e.core.retryCount + 1 } }
    let p := nextBaseInterval e1
    (p.1, jitterize p.1 p.2, true)

/-- State of an exponential policy after `k` calls to `Next`. -/
def Exponential.callsState (e : Exponential) : Nat → Exponential
  | 0 => e
  | k + 1 => (Exponential.next (Exponential.callsState e k)).1

/-- Result of the `k`-th call to `Next` on an exponential policy
(0-indexed). -/
def Exponential.callResult (e : Exponential) (k : Nat) : Int × Bool :=
  (Exponential.next (Exponential.callsState e k)).2

/-- State of a constant policy after `k` calls to `Next`. -/
def Constant.callsState (c : Constant) : Nat → Constant
  | 0 => c
  | k + 1 => (Constant.next (Constant.callsState c k)).1

/-- Result of the `k`-th call to `Next` on a constant policy (0-indexed). -/
def Constant.callResult (c : Constant) (k : Nat) : Int × Bool :=
  (Constant.next (Constant.callsState c k)).2

/-- The pure interval recurrence followed by an un-jittered, un-clamped
exponential policy: the initial interval, then truncation toward zero of the
product with the multiplier at each step. -/
def expSeq (initial : Int) (m : ℚ) : Nat → Int
  | 0 => initial
  | k + 1 => goTrunc ((expSeq initial m k : ℚ) * m)

/-! ## Config (variant selection, config.go first revision) -/

structure Config where
  interval : Int
  jitter : ℚ
  multiplier : ℚ
  maxRetries : Int
  maxElapsedTime : Int
  maxInterval : Int

inductive PolicyValue where
  | never
  | constant (c : Constant)
  | exponential (e : Exponential)

/-- Embeds `Config.NewPolicy`: nonpositive interval selects `never`;
positive interval with nonpositive jitter and multiplier at most 1.0
selects `constant`; otherwise `exponential`.  `ctxErr` stands for the
current error of the child scope derived from the parent context and
`rand` for the `rand.Int63n` source installed by the factory. -/
def Config.newPolicy (c : Config) (rand : Int → Int)
    (ctxErr : Option GoError) : PolicyValue :=
  if c.interval ≤ 0 then PolicyValue.never
  else
    let cp : CorePolicy :=
      { maxRetries := c.maxRetries, retryCount := 0, ctxErr := ctxErr }
    if c.jitter ≤ 0 ∧ c.multiplier ≤ 1 then
      PolicyValue.constant { core := cp, interval := c.interval }
    else
      PolicyValue.exponential
        { core := cp, rand := rand, initial := c.interval, previous := 0,
          jitter := c.jitter, multiplier := c.multiplier,
          maxInterval := c.maxInterval }

/-! ## Attempt (attempt.go) -/

/-- The attempt record passed to observers.  `ctxErr` stands for the value
`Context.Err()` reports when queried on this record; inside the runner model
it is `none`, since the loop guard has just seen a live context. -/
structure Attempt (V : Type) where
  ctxErr : Option GoError
  result : V
  err : Option GoError
  retries : Nat
  next : Int

/-- Embeds `Attempt.Done`: `a.Next <= 0 || a.Context.Err() != nil`. -/
def Attempt.done {V : Type} (a : Attempt V) : Bool :=
  a.next ≤ 0 || a.ctxErr ≠ none

/-! ## Runner model (runner.go, current revision)

The loop in `runner[V].Run` interacts with four external effects, modelled
as oracles indexed by occurrence:

* `task k` — the result of the `k`-th task invocation;
* `pnext j` — the result of the `j`-th call to `Policy.Next` (the policy is
  consulted only on attempts whose `CheckRetry` came back true, so the
  consultation index `j` can lag the attempt index `k`);
* `guardErr k` — what `taskCtx.Err()` reports at the `k`-th loop guard;
* `waitOutcome k` — how the `select` in `awaitRetry` resolves the `k`-th
  wait: `none` means the timer fired, `some e` means the context's done
  channel was chosen and `taskCtx.Err()` reported `e`.

The model also keeps an event trace and per-attempt round records,
accumulated at exactly the points where the source performs the
corresponding calls. -/

structure RunnerM (V : Type) where
  shouldRetry : Option (ShouldRetryPred V)
  onAttempts : List Nat

structure RunOracle (V : Type) where
  task : Nat → V × Option GoError
  pnext : Nat → Int × Bool
  guardErr : Nat → Option GoError
  waitOutcome : Nat → Option GoError

inductive REvent (V : Type) where
  | taskCall (retries : Nat) (result : V) (err : Option GoError)
  | policyNext (d : Int) (ok : Bool)
  | observe (id : Nat) (a : Attempt V)
  | waitFired (interval : Int)
  | waitCancelled (interval : Int) (e : GoError)

/-- One round of the loop: the `k`-th task invocation, the policy
consultation it triggered (if any), the attempt record dispatched to the
observers, and how the ensuing wait ended (`none`: no wait because the
round decided to stop; `some none`: timer fired; `some (some e)`: the scope
ended mid-wait with error `e`). -/
structure RoundInfo (V : Type) where
  k : Nat
  result : V
  err : Option GoError
  pcall : Option (Int × Bool)
  attempt : Attempt V
  wait : Option (Option GoError)

/-- The events a single round contributes to the trace, in source order:
the task call, then the policy consultation, then one observer dispatch per
registered observer in registration order, then the wait. -/
def RoundInfo.events {V : Type} (m : RunnerM V) (rd : RoundInfo V) :
    List (REvent V) :=
  REvent.taskCall rd.k rd.result rd.err ::
    ((match rd.pcall with
      | some p => [REvent.policyNext p.1 p.2]
      | none => []) ++
      m.onAttempts.map (fun i => REvent.observe i rd.attempt) ++
      (match rd.wait with
      | some (some e) => [REvent.waitCancelled rd.attempt.next e]
      | some none => [REvent.waitFired rd.attempt.next]
      | none => []))

inductive ExitKind where
  | decision
  | guard
  | cancelledWait
  | fuelOut
deriving DecidableEq

structure RunResult (V : Type) where
  result : V
  err : Option GoError
  events : List (REvent V)
  rounds : List (RoundInfo V)
  exit : ExitKind

structure HandleResult (V : Type) where
  interval : Int
  keepTrying : Bool
  jNext : Nat
  pcall : Option (Int × Bool)
  events : List (REvent V)
  attempt : Attempt V

/-- Embeds `runner[V].handleAttempt`: build the attempt record, decide
retryability with `CheckRetry`, consult the policy only when retryable
(storing the interval into the record's `Next`), then dispatch to every
observer in registration order. -/
def handleAttempt {V : Type} (m : RunnerM V) (o : RunOracle V) (j k : Nat)
    (result : V) (err : Option GoError) : HandleResult V :=
  let a0 : Attempt V :=
    { ctxErr := none, result := result, err := err, retries := k, next := 0 }
  if CheckRetry result err m.shouldRetry then
    let p := o.pnext j
    let a := { a0 with next := p.1 }
    { interval := p.1, keepTrying := p.2, jNext := j + 1, pcall := some p,
      events := REvent.policyNext p.1 p.2 ::
        m.onAttempts.map (fun i => REvent.observe i a),
      attempt := a }
  else
    { interval := 0, keepTrying := false, jNext := j, pcall := none,
      events := m.onAttempts.map (fun i => REvent.observe i a0),
      attempt := a0 }

/-- Embeds the loop of `runner[V].Run`.  The named return values start as
the zero value of `V` and a nil error; `result` is only assigned when a
round decides to stop, so a guard exit and a cancelled wait both return the
zero value. -/
def runLoop {V : Type} [Inhabited V] (m : RunnerM V) (o : RunOracle V) :
    Nat → Nat → Nat → RunResult V
  | 0, _, _ =>
    { result := default, err := none, events := [], rounds := [],
      exit := ExitKind.fuelOut }
  | fuel + 1, k, j =>
    match o.guardErr k with
    | some _ =>
      { result := default, err := none, events := [], rounds := [],
        exit := ExitKind.guard }
    | none =>
      let t := o.task k
      let h := handleAttempt m o j k t.1 t.2
      let mkRound : Option (Option GoError) → RoundInfo V := fun w =>
        { k := k, result := t.1, err := t.2, pcall := h.pcall,
          attempt := h.attempt, wait := w }
      if h.keepTrying then
        match o.waitOutcome k with
        | some e =>
          { result := default, err := some e,
            events := REvent.taskCall k t.1 t.2 ::
              (h.events ++ [REvent.waitCancelled h.interval e]),
            rounds := [mkRound (some (some e))],
            exit := ExitKind.cancelledWait }
        | none =>
          let rest := runLoop m o fuel (k + 1) h.jNext
          { result := rest.result, err := rest.err,
            events := REvent.taskCall k t.1 t.2 ::
              (h.events ++ [REvent.waitFired h.interval] ++ rest.events),
            rounds := mkRound (some none) :: rest.rounds,
            exit := rest.exit }
      else
        { result := t.1, err := t.2,
          events := REvent.taskCall k t.1 t.2 :: h.events,
          rounds := [mkRound none],
          exit := ExitKind.decision }

/-- `runner[V].Run` on a fresh policy: loop from attempt 0, consultation 0,
with the given fuel bound on the number of loop iterations. -/
def runModel {V : Type} [Inhabited V] (m : RunnerM V) (o : RunOracle V)
    (fuel : Nat) : RunResult V :=
  runLoop m o fuel 0 0

/-- The round record the loop builds for the `k`-th task invocation when
the policy-consultation counter stands at `j` and the wait ended as `w`. -/
def roundAt {V : Type} (m : RunnerM V) (o : RunOracle V) (j k : Nat)
    (w : Option (Option GoError)) : RoundInfo V where
  k := k
  result := (o.task k).1
  err := (o.task k).2
  pcall := (handleAttempt m o j k (o.task k).1 (o.task k).2).pcall
  attempt := (handleAttempt m o j k (o.task k).1 (o.task k).2).attempt
  wait := w

/-! ## HTTP client (retryhttp/client.go) and response cleanup
(retryhttp/cleanupResponse.go) -/

/-- Embeds `CleanupResponse`.  The attempt's result is a nullable response
pointer; the first component of the output is the state of the response
object the pointer designates after the observer ran (its `Body` field is
nulled when cleanup fires), and the second is the final state of the
detached body object when cleanup drained and closed it. -/
def CleanupResponse (a : Attempt (Option HTTPResponse)) :
    Option HTTPResponse × Option BodyState :=
  if ¬ Attempt.done a then
    match a.result with
    | some resp =>
      match resp.body with
      | some b =>
        let b1 := { b with drained := true }
        let b2 := { b1 with closed := true }
        (some { resp with body := none }, some b2)
      | none => (a.result, none)
    | none => (a.result, none)
  else (a.result, none)

inductive HClient where
  | defaultClient
  | custom (id : Nat)
deriving DecidableEq

/-- The `Client` struct: an HTTP capability, an optional retry runner, and
request mutators (modelled by identifiers). -/
structure ClientM where
  hc : Option HClient
  runner : Option (RunnerM (Option HTTPResponse))
  requesters : List Nat

def ClientOptionM : Type := ClientM → ClientM × Option GoError

/-- Embeds `WithRunner`: the given runner is stored on the client as-is. -/
def WithRunner (r : RunnerM (Option HTTPResponse)) : ClientOptionM :=
  fun c => ({ c with runner := some r }, none)

/-- Embeds `NewClient`: apply the options in order stopping at the first
error, then default the HTTP capability, and return no client on error. -/
def NewClient (opts : List ClientOptionM) : Option ClientM :=
  let start : ClientM × Option GoError :=
    ({ hc := none, runner := none, requesters := [] }, none)
  let r := opts.foldl
    (fun acc o =>
      match acc.2 with
      | some _ => acc
      | none => o acc.1)
    start
  match r.2 with
  | some _ => none
  | none =>
    some (if r.1.hc = none then
      { r.1 with hc := some HClient.defaultClient }
    else r.1)

/-! ## Concrete instances used by witnesses and counterexamples -/

def cleanupBodyEx : BodyState := { drained := false, closed := false }

def cleanupRespEx : HTTPResponse := { statusCode := 503, body := some cleanupBodyEx }

def cleanupAttemptEx : Attempt (Option HTTPResponse) :=
  { ctxErr := none, result := some cleanupRespEx, err := none, retries := 0,
    next := 5 }

def c7Exp : Exponential :=
  { core := { maxRetries := 0, retryCount := 0, ctxErr := none },
    rand := fun _ => 0, initial := 20, previous := 0, jitter := 0,
    multiplier := 1, maxInterval := 10 }

/-- A constant policy with `maxRetries = 2` and a 27-unit interval. -/
def c8Const : Constant :=
  { core := { maxRetries := 2, retryCount := 0, ctxErr := none },
    interval := 27 }

/-- A fresh exponential policy with initial interval 7 and multiplier 1.5:
the products `7 * 1.5` are not integers, so the closed form
`initial * multiplier ^ k` diverges from the truncating code. -/
def c6Exp : Exponential :=
  { core := { maxRetries := 0, retryCount := 0, ctxErr := none },
    rand := fun _ => 0, initial := 7, previous := 0, jitter := 0,
    multiplier := 3 / 2, maxInterval := 0 }

/-- A fresh exponential policy with initial interval 5 and multiplier 2. -/
def c6ExpW : Exponential :=
  { core := { maxRetries := 0, retryCount := 0, ctxErr := none },
    rand := fun _ => 0, initial := 5, previous := 0, jitter := 0,
    multiplier := 2, maxInterval := 0 }

/-- A configuration with a 5-second interval and `Jitter: 1.0`, which
`Config.NewPolicy` turns into an exponential policy. -/
def c3Config : Config :=
  { interval := 5000000000, jitter := 1, multiplier := 0, maxRetries := 0,
    maxElapsedTime := 0, maxInterval := 0 }

/-- The exponential policy produced by `c3Config` when the random source
draws 0 (a legitimate draw of `rand.Int63n`). -/
def c3Exp : Exponential :=
  { core := { maxRetries := 0, retryCount := 0, ctxErr := none },
    rand := fun _ => 0, initial := 5000000000, previous := 0, jitter := 1,
    multiplier := 0, maxInterval := 0 }

/-- A plain error carrying no retryability or temporary signal; also used
as the error a cancelled scope reports. -/
def cancelErr : GoError := GoError.mk none none none

/-- A runner with no retry predicate and no observers, over integer
results. -/
def c2Runner : RunnerM Int := { shouldRetry := none, onAttempts := [] }

/-- An oracle whose scope is already cancelled at the very first loop
guard: no attempt ever runs. -/
def c2OracleGuard : RunOracle Int :=
  { task := fun _ => (0, none), pnext := fun _ => (0, false),
    guardErr := fun _ => some cancelErr, waitOutcome := fun _ => none }

/-- An oracle whose first wait is interrupted by cancellation: the task
fails retryably, the policy grants a 5-unit interval, and the scope ends
during the wait. -/
def c2OracleWait : RunOracle Int :=
  { task := fun _ => (7, some cancelErr), pnext := fun _ => (5, true),
    guardErr := fun _ => none, waitOutcome := fun _ => some cancelErr }

/-- A runner with one registered observer (id 0) and no retry predicate. -/
def c5Runner : RunnerM Int := { shouldRetry := none, onAttempts := [0] }

/-- An oracle reproducing the cancel-during-third-wait scenario of the
repository's runner test: the task always fails retryably, every policy
consultation grants `(5, true)`, the first two waits see the timer fire,
and the third wait is interrupted by cancellation. -/
def c5Oracle : RunOracle Int :=
  { task := fun _ => (-1, some cancelErr), pnext := fun _ => (5, true),
    guardErr := fun _ => none,
    waitOutcome := fun k => if k = 2 then some cancelErr else none }

/-- A retry runner for HTTP responses with no observers registered. -/
def r0C4 : RunnerM (Option HTTPResponse) :=
  { shouldRetry := none, onAttempts := [] }

/-- The client value `NewClient [WithRunner r]` produces: the given runner
stored as-is, the default HTTP capability, no requesters. -/
def clientWithRunner (r : RunnerM (Option HTTPResponse)) : ClientM :=
  { hc := some HClient.defaultClient, runner := some r, requesters := [] }

/-- The client produced by configuring only `WithRunner r0C4`. -/
def clientC4 : ClientM :=
  { hc := some HClient.defaultClient, runner := some r0C4, requesters := [] }

/-! ## Helper lemmas -/

theorem goTrunc_eq_floor (q : ℚ) (h : 0 ≤ q) : goTrunc q = ⌊q⌋ := by
  unfold goTrunc
  have hnum : 0 ≤ q.num := Rat.num_nonneg.mpr h
  rw [Int.tdiv_eq_ediv hnum (by positivity), Rat.floor_def]

theorem le_goTrunc_of_le (b : Int) (q : ℚ) (hb : 0 ≤ b) (h : (b : ℚ) ≤ q) :
    b ≤ goTrunc q := by
  have h0 : (0 : ℚ) ≤ q := le_trans (by exact_mod_cast hb) h
  rw [goTrunc_eq_floor q h0]
  exact Int.le_floor.mpr h

theorem goTrunc_intCast (n : Int) : goTrunc (n : ℚ) = n := by
  unfold goTrunc
  simp

theorem clampToMax_le (maxInterval x : Int) (h : 0 < maxInterval) :
    clampToMax maxInterval x ≤ maxInterval := by
  unfold clampToMax
  split
  · exact le_refl _
  · next hc =>
    rcases not_and_or.mp hc with h2 | h2
    · exact absurd h h2
    · exact not_lt.mp h2

theorem jitterize_le_maxInterval (e : Exponential) (base : Int)
    (h : 0 < e.maxInterval) : jitterize e base ≤ e.maxInterval :=
  clampToMax_le e.maxInterval _ h

theorem exponentialNext_le_maxInterval (e : Exponential)
    (h : 0 < e.maxInterval) : (Exponential.next e).2.1 ≤ e.maxInterval := by
  unfold Exponential.next
  split
  · exact le_of_lt h
  · exact jitterize_le_maxInterval _ _ h

/-! ## Claim theorems -/

/-- C1: for every result value, error, and optional predicate, `CheckRetry`
obeys exactly the precedence: nil error reports false; otherwise a present
predicate decides; otherwise a retryability signal found anywhere in the
error's cause chain decides; otherwise true.  Stated as extensional
equality between the source embedding `CheckRetry` and the spec-side
`CheckRetrySpec`. -/
theorem checkRetry_matches_spec_precedence :
    ∀ (V : Type) (result : V) (err : Option GoError)
      (p : Option (ShouldRetryPred V)),
      CheckRetry result err p = CheckRetrySpec result err p := by
  intro V result err p
  cases err with
  | none => rfl
  | some e =>
    cases p with
    | some pred => rfl
    | none =>
      cases h : findShouldRetry e <;> simp [CheckRetry, CheckRetrySpec, h]

/-- C9: the predicate built by `NewShouldRetry` decides, for every
response/error pair: a present error with a chain-visible temporary signal
by that signal, a present error without one as non-retryable, an absent
response as non-retryable, and otherwise by membership of the status code
in the configured set.  Stated as extensional equality between the source
embedding and the spec-side `NewShouldRetrySpec`. -/
theorem newShouldRetry_matches_spec :
    ∀ (statusCodes : List Int) (response : Option HTTPResponse)
      (err : Option GoError),
      NewShouldRetry statusCodes response err =
        NewShouldRetrySpec statusCodes response err := by
  intro codes response err
  cases err with
  | none =>
    cases response with
    | none => rfl
    | some r => rfl
  | some e =>
    cases response with
    | none =>
      simp [NewShouldRetry, NewShouldRetrySpec, findTemporaryOpt]
    | some r =>
      simp [NewShouldRetry, NewShouldRetrySpec, findTemporaryOpt]

/-- C10: `CleanupResponse` is total and leaves the attempt's response
unchanged unless the attempt is not done and both the response and its body
are present, in which case the body is drained, closed, and the response's
body reference nulled; a missing response or missing body is silently
ignored. -/
theorem cleanupResponse_conditional (a : Attempt (Option HTTPResponse)) :
    (Attempt.done a = true → CleanupResponse a = (a.result, none)) ∧
    (a.result = none → CleanupResponse a = (none, none)) ∧
    (∀ resp : HTTPResponse, a.result = some resp → resp.body = none →
      CleanupResponse a = (some resp, none)) ∧
    (∀ (resp : HTTPResponse) (b : BodyState), Attempt.done a = false →
      a.result = some resp → resp.body = some b →
      CleanupResponse a =
        (some { statusCode := resp.statusCode, body := none },
          some { drained := true, closed := true })) := by
  refine ⟨?_, ?_, ?_, ?_⟩
  · intro h
    simp [CleanupResponse, h]
  · intro h
    by_cases hd : Attempt.done a <;> simp [CleanupResponse, h, hd]
  · intro resp h hb
    by_cases hd : Attempt.done a <;> simp [CleanupResponse, h, hb, hd]
  · intro resp b hd h hb
    simp [CleanupResponse, h, hb, hd]

/-- Witness for C10 at a not-done attempt carrying a response with an open
body: the body is drained and closed and the reference nulled. -/
theorem cleanupResponse_conditional_witness :
    CleanupResponse cleanupAttemptEx =
      (some { statusCode := 503, body := none },
        some { drained := true, closed := true }) :=
  (cleanupResponse_conditional cleanupAttemptEx).2.2.2 cleanupRespEx
    cleanupBodyEx (by decide) rfl rfl

/-- C7: for every exponential policy with a positive `maxInterval`, every
value `Next` returns is at most `maxInterval`, whatever the initial
interval, multiplier, jitter, or random draw; the bound is enforced by the
final clamp of `jitterize`, which both the un-jittered and the jittered
paths pass through. -/
theorem exponential_maxInterval_bound (e : Exponential) (base : Int)
    (h : 0 < e.maxInterval) :
    jitterize e base ≤ e.maxInterval ∧
      (Exponential.next e).2.1 ≤ e.maxInterval :=
  ⟨jitterize_le_maxInterval e base h, exponentialNext_le_maxInterval e h⟩

/-- Witness for C7: a policy whose initial interval 20 exceeds
`maxInterval = 10` still returns at most 10. -/
theorem exponential_maxInterval_bound_witness :
    jitterize c7Exp 20 ≤ c7Exp.maxInterval ∧
      (Exponential.next c7Exp).2.1 ≤ c7Exp.maxInterval :=
  exponential_maxInterval_bound c7Exp 20 (by decide)

theorem constant_callsState_spec (c : Constant) (n : Int) (hn : 0 < n)
    (hmr : c.core.maxRetries = n) (hctx : c.core.ctxErr = none)
    (hrc : c.core.retryCount = 0) (k : Nat) :
    (Constant.callsState c k).core.maxRetries = n ∧
    (Constant.callsState c k).core.ctxErr = none ∧
    (Constant.callsState c k).interval = c.interval ∧
    (Constant.callsState c k).core.retryCount = min (k : Int) n := by
  induction k with
  | zero =>
    refine ⟨hmr, hctx, rfl, ?_⟩
    simp only [Constant.callsState]
    push_cast
    omega
  | succ k ih =>
    obtain ⟨h1, h2, h3, h4⟩ := ih
    by_cases hk : (k : Int) < n
    · have hw : withinLimits (Constant.callsState c k).core = true := by
        unfold withinLimits
        rw [h1, h2, h4]
        simp
        omega
      refine ⟨?_, ?_, ?_, ?_⟩ <;>
        (simp [Constant.callsState, Constant.next, hw, h1, h2, h3, h4]
         try omega)
    · have hw : withinLimits (Constant.callsState c k).core = false := by
        unfold withinLimits
        rw [h1, h2, h4]
        simp
        omega
      refine ⟨?_, ?_, ?_, ?_⟩ <;>
        (simp [Constant.callsState, Constant.next, hw, h1, h2, h3, h4]
         try omega)

/-- C8: a constant policy created with `maxRetries = n > 0`, while its
context stays live, returns `(interval, true)` on each of the first `n`
calls to `Next` and `(0, false)` on every later call. -/
theorem constant_retry_exhaustion (c : Constant) (n : Int)
    (hmr : c.core.maxRetries = n) (hn : 0 < n)
    (hrc : c.core.retryCount = 0) (hctx : c.core.ctxErr = none) (k : Nat) :
    Constant.callResult c k =
      if (k : Int) < n then (c.interval, true) else (0, false) := by
  obtain ⟨h1, h2, h3, h4⟩ := constant_callsState_spec c n hn hmr hctx hrc k
  unfold Constant.callResult
  by_cases hk : (k : Int) < n
  · have hw : withinLimits (Constant.callsState c k).core = true := by
      unfold withinLimits
      rw [h1, h2, h4]
      simp
      omega
    simp [Constant.next, hw, hk, h3]
  · have hw : withinLimits (Constant.callsState c k).core = false := by
      unfold withinLimits
      rw [h1, h2, h4]
      simp
      omega
    simp [Constant.next, hw, hk]

/-- Witness for C8 with `maxRetries = 2` and interval 27: the first and
second calls return `(27, true)`, the third returns `(0, false)`. -/
theorem constant_retry_exhaustion_witness :
    Constant.callResult c8Const 0 = (27, true) ∧
    Constant.callResult c8Const 1 = (27, true) ∧
    Constant.callResult c8Const 2 = (0, false) := by
  refine ⟨?_, ?_, ?_⟩
  · have h := constant_retry_exhaustion c8Const 2 rfl (by decide) rfl rfl 0
    simpa using h
  · have h := constant_retry_exhaustion c8Const 2 rfl (by decide) rfl rfl 1
    simpa using h
  · have h := constant_retry_exhaustion c8Const 2 rfl (by decide) rfl rfl 2
    simpa using h

theorem expSeq_pos (initial : Int) (m : ℚ) (hi : 0 < initial) (hm : 1 ≤ m) :
    ∀ k, 0 < expSeq initial m k := by
  intro k
  induction k with
  | zero => exact hi
  | succ k ih =>
    have hle : ((expSeq initial m k : Int) : ℚ) ≤ (expSeq initial m k : ℚ) * m :=
      le_mul_of_one_le_right (by exact_mod_cast le_of_lt ih) hm
    have hg := le_goTrunc_of_le (expSeq initial m k) _ (le_of_lt ih) hle
    exact lt_of_lt_of_le ih hg

theorem expSeq_intCast (initial : Int) (z : Int) (k : Nat) :
    expSeq initial (z : ℚ) k = initial * z ^ k := by
  induction k with
  | zero => simp [expSeq]
  | succ k ih =>
    show goTrunc ((expSeq initial (z : ℚ) k : ℚ) * (z : ℚ)) = initial * z ^ (k + 1)
    rw [ih]
    have : ((initial * z ^ k : Int) : ℚ) * (z : ℚ) =
        ((initial * z ^ (k + 1) : Int) : ℚ) := by
      push_cast
      ring
    rw [this, goTrunc_intCast]

/-- The base interval `nextBaseInterval` computes, expressed in terms of
the pre-call state. -/
def baseOf (s : Exponential) : Int :=
  if 0 < s.previous then
    clampToMax s.maxInterval
      (if 1 < s.multiplier then goTrunc ((s.previous : ℚ) * s.multiplier)
        else s.previous)
  else s.initial

theorem exponential_next_state_fields (s : Exponential)
    (hw : withinLimits s.core = true) :
    (Exponential.next s).1.core.maxRetries = s.core.maxRetries ∧
    (Exponential.next s).1.core.ctxErr = s.core.ctxErr ∧
    (Exponential.next s).1.core.retryCount = s.core.retryCount + 1 ∧
    (Exponential.next s).1.jitter = s.jitter ∧
    (Exponential.next s).1.multiplier = s.multiplier ∧
    (Exponential.next s).1.maxInterval = s.maxInterval ∧
    (Exponential.next s).1.initial = s.initial ∧
    (Exponential.next s).1.previous = baseOf s := by
  refine ⟨?_, ?_, ?_, ?_, ?_, ?_, ?_, ?_⟩ <;>
    simp [Exponential.next, nextBaseInterval, baseOf, hw]

theorem exponential_next_result_noJitter (s : Exponential)
    (hw : withinLimits s.core = true) (hjit : s.jitter = 0)
    (hmaxi : s.maxInterval = 0) :
    (Exponential.next s).2 = (baseOf s, true) := by
  simp [Exponential.next, nextBaseInterval, jitterize, clampToMax, baseOf,
    hw, hjit, hmaxi]

theorem exponential_callsState_spec (e : Exponential) (hjit : e.jitter = 0)
    (hmul : 1 < e.multiplier) (hmaxi : e.maxInterval = 0)
    (hinit : 0 < e.initial) (hprev : e.previous = 0)
    (hrc : e.core.retryCount = 0) (hctx : e.core.ctxErr = none) (k : Nat)
    (hlim : e.core.maxRetries ≤ 0 ∨ (k : Int) ≤ e.core.maxRetries) :
    (Exponential.callsState e k).core.maxRetries = e.core.maxRetries ∧
    (Exponential.callsState e k).core.ctxErr = none ∧
    (Exponential.callsState e k).core.retryCount = (k : Int) ∧
    (Exponential.callsState e k).jitter = 0 ∧
    (Exponential.callsState e k).multiplier = e.multiplier ∧
    (Exponential.callsState e k).maxInterval = 0 ∧
    (Exponential.callsState e k).initial = e.initial ∧
    (Exponential.callsState e k).previous =
      (if k = 0 then 0 else expSeq e.initial e.multiplier (k - 1)) := by
  induction k with
  | zero =>
    refine ⟨rfl, hctx, ?_, hjit, rfl, hmaxi, rfl, ?_⟩
    · simp only [Exponential.callsState]
      push_cast
      omega
    · simp [Exponential.callsState, hprev]
  | succ k ih =>
    have hlim2 : e.core.maxRetries ≤ 0 ∨ (k : Int) ≤ e.core.maxRetries := by
      rcases hlim with h | h
      · exact Or.inl h
      · right
        push_cast at h ⊢
        omega
    obtain ⟨h1, h2, h3, h4, h5, h6, h7, h8⟩ := ih hlim2
    have hw : withinLimits (Exponential.callsState e k).core = true := by
      unfold withinLimits
      rw [h1, h2, h3]
      simp
      rcases hlim with h | h
      · omega
      · push_cast at h
        omega
    obtain ⟨g1, g2, g3, g4, g5, g6, g7, g8⟩ :=
      exponential_next_state_fields (Exponential.callsState e k) hw
    have hstep : Exponential.callsState e (k + 1) =
        (Exponential.next (Exponential.callsState e k)).1 := rfl
    rw [hstep]
    refine ⟨g1.trans h1, g2.trans h2, ?_, g4.trans h4, g5.trans h5,
      g6.trans h6, g7.trans h7, ?_⟩
    · rw [g3, h3]
      push_cast
      ring
    · rw [g8]
      unfold baseOf
      cases k with
      | zero =>
        have hp0 : (Exponential.callsState e 0).previous = 0 := by
          simpa using h8
        rw [hp0, h7]
        simp [expSeq]
      | succ j =>
        have hpj : (Exponential.callsState e (j + 1)).previous =
            expSeq e.initial e.multiplier j := by simpa using h8
        have hpos : 0 < expSeq e.initial e.multiplier j :=
          expSeq_pos e.initial e.multiplier hinit (le_of_lt hmul) j
        rw [hpj, h5, h6]
        simp [clampToMax, hpos, hmul, expSeq]

/-- C6 (amended): for a fresh exponential policy with `multiplier > 1.0`,
`jitter = 0`, and `maxInterval = 0`, while limits have not been hit the
`k`-th call to `Next` returns the k-th element of the truncating recurrence
`d 0 = initial, d (k+1) = trunc(d k * multiplier)` — which agrees with the
closed form `initial * multiplier ^ k` whenever the multiplier is an
integer, but not in general. -/
theorem exponential_interval_recurrence (e : Exponential) (k : Nat)
    (hjit : e.jitter = 0) (hmul : 1 < e.multiplier) (hmaxi : e.maxInterval = 0)
    (hinit : 0 < e.initial) (hprev : e.previous = 0)
    (hrc : e.core.retryCount = 0) (hctx : e.core.ctxErr = none)
    (hlim : e.core.maxRetries ≤ 0 ∨ (k : Int) < e.core.maxRetries) :
    Exponential.callResult e k = (expSeq e.initial e.multiplier k, true) ∧
    (∀ z : Int, e.multiplier = (z : ℚ) →
      expSeq e.initial e.multiplier k = e.initial * z ^ k) := by
  constructor
  · have hlim2 : e.core.maxRetries ≤ 0 ∨ (k : Int) ≤ e.core.maxRetries := by
      rcases hlim with h | h
      · exact Or.inl h
      · exact Or.inr (le_of_lt h)
    obtain ⟨h1, h2, h3, h4, h5, h6, h7, h8⟩ :=
      exponential_callsState_spec e hjit hmul hmaxi hinit hprev hrc hctx k hlim2
    have hw : withinLimits (Exponential.callsState e k).core = true := by
      unfold withinLimits
      rw [h1, h2, h3]
      simp
      rcases hlim with h | h
      · omega
      · omega
    unfold Exponential.callResult
    rw [exponential_next_result_noJitter (Exponential.callsState e k) hw h4 h6]
    unfold baseOf
    cases k with
    | zero =>
      have hp0 : (Exponential.callsState e 0).previous = 0 := by simpa using h8
      rw [hp0, h7]
      simp [expSeq]
    | succ j =>
      have hpj : (Exponential.callsState e (j + 1)).previous =
          expSeq e.initial e.multiplier j := by simpa using h8
      have hpos : 0 < expSeq e.initial e.multiplier j :=
        expSeq_pos e.initial e.multiplier hinit (le_of_lt hmul) j
      rw [hpj, h5, h6]
      simp [clampToMax, hpos, hmul, expSeq]
  · intro z hz
    rw [hz]
    exact expSeq_intCast e.initial z k

/-- Counterexample for C6 as stated: the fresh exponential policy with
initial interval 7 and multiplier 1.5 returns 10 on its second call, while
the closed form of the claim demands `7 * 1.5 = 10.5`. -/
theorem exponential_closed_form_counterexample :
    Exponential.callResult c6Exp 1 = (10, true) ∧
    ((10 : ℚ) ≠ (7 : ℚ) * (3 / 2) ^ (1 : Nat)) := by
  constructor
  · have hw0 : withinLimits c6Exp.core = true := by decide
    obtain ⟨g1, g2, g3, g4, g5, g6, g7, g8⟩ :=
      exponential_next_state_fields c6Exp hw0
    have hs1 : Exponential.callsState c6Exp 1 = (Exponential.next c6Exp).1 :=
      rfl
    have hw1 : withinLimits (Exponential.callsState c6Exp 1).core = true := by
      rw [hs1]
      unfold withinLimits
      rw [g1, g2, g3]
      simp [c6Exp]
    have hjit1 : (Exponential.callsState c6Exp 1).jitter = 0 := by
      rw [hs1, g4]; rfl
    have hmaxi1 : (Exponential.callsState c6Exp 1).maxInterval = 0 := by
      rw [hs1, g6]; rfl
    have hres := exponential_next_result_noJitter
      (Exponential.callsState c6Exp 1) hw1 hjit1 hmaxi1
    unfold Exponential.callResult
    rw [hres]
    have hbase0 : baseOf c6Exp = 7 := by norm_num [baseOf, c6Exp]
    have hprev1 : (Exponential.callsState c6Exp 1).previous = 7 := by
      rw [hs1, g8, hbase0]
    have hmul1 : (Exponential.callsState c6Exp 1).multiplier = 3 / 2 := by
      rw [hs1, g5]; rfl
    unfold baseOf
    rw [hprev1, hmul1, hmaxi1]
    have h32 : (1 : ℚ) < 3 / 2 := by norm_num
    rw [if_pos h32]
    have hgt : goTrunc (((7 : Int) : ℚ) * (3 / 2)) = 10 := by
      rw [goTrunc_eq_floor _ (by norm_num)]
      norm_num
    rw [hgt]
    norm_num [clampToMax]
  · norm_num

/-- Witness for C6 at multiplier 2, initial 5: the fourth call returns 40,
matching both the truncating recurrence and the closed form. -/
theorem exponential_interval_recurrence_witness :
    Exponential.callResult c6ExpW 3 =
      (expSeq c6ExpW.initial c6ExpW.multiplier 3, true) ∧
    expSeq c6ExpW.initial c6ExpW.multiplier 3 = 40 := by
  have h := exponential_interval_recurrence c6ExpW 3 rfl
    (by norm_num [c6ExpW]) rfl (by decide) rfl rfl rfl (Or.inl (by decide))
  refine ⟨h.1, ?_⟩
  have h2 := h.2 2 (by norm_num [c6ExpW])
  rw [h2]
  norm_num [c6ExpW]

/-- C3 (code bug evaluation): `Config.NewPolicy` accepts `Jitter: 1.0`
unchanged and produces an exponential policy; on a draw of 0 from the
random source the first call to `Next` returns `(0, true)`, contradicting
the documented contract of `Policy.Next` that a true flag comes with a
positive duration. -/
theorem exponential_zero_duration_with_true :
    Config.newPolicy c3Config (fun _ => 0) none = PolicyValue.exponential c3Exp ∧
    (Exponential.next c3Exp).2 = (0, true) := by
  refine ⟨rfl, ?_⟩
  have hg : goTrunc ((5000000000 : ℚ)) = 5000000000 := by
    rw [goTrunc_eq_floor _ (by norm_num)]
    norm_num
  norm_num [Exponential.next, nextBaseInterval, jitterize, clampToMax,
    withinLimits, c3Exp, hg]

/-! ## Runner lemmas -/

theorem handleAttempt_events_eq {V : Type} (m : RunnerM V) (o : RunOracle V)
    (j k : Nat) (r : V) (er : Option GoError) :
    (handleAttempt m o j k r er).events =
      (match (handleAttempt m o j k r er).pcall with
        | some p => [REvent.policyNext p.1 p.2]
        | none => []) ++
      m.onAttempts.map
        (fun i => REvent.observe i (handleAttempt m o j k r er).attempt) := by
  by_cases hc : CheckRetry r er m.shouldRetry <;> simp [handleAttempt, hc]

theorem handleAttempt_interval_eq {V : Type} (m : RunnerM V) (o : RunOracle V)
    (j k : Nat) (r : V) (er : Option GoError) :
    (handleAttempt m o j k r er).interval =
      (handleAttempt m o j k r er).attempt.next := by
  by_cases hc : CheckRetry r er m.shouldRetry <;> simp [handleAttempt, hc]

theorem handleAttempt_attempt_fields {V : Type} (m : RunnerM V)
    (o : RunOracle V) (j k : Nat) (r : V) (er : Option GoError) :
    (handleAttempt m o j k r er).attempt.result = r ∧
    (handleAttempt m o j k r er).attempt.err = er ∧
    (handleAttempt m o j k r er).attempt.retries = k ∧
    (handleAttempt m o j k r er).attempt.next =
      (match (handleAttempt m o j k r er).pcall with
        | some p => p.1
        | none => 0) ∧
    ((handleAttempt m o j k r er).pcall = none ↔
      CheckRetry r er m.shouldRetry = false) := by
  by_cases hc : CheckRetry r er m.shouldRetry <;> simp [handleAttempt, hc]

theorem handleAttempt_next_zero_of_stop {V : Type} (m : RunnerM V)
    (o : RunOracle V) (j k : Nat) (r : V) (er : Option GoError)
    (hpol : ∀ i, (o.pnext i).2 = false → (o.pnext i).1 = 0)
    (hk : (handleAttempt m o j k r er).keepTrying = false) :
    (handleAttempt m o j k r er).attempt.next = 0 := by
  by_cases hc : CheckRetry r er m.shouldRetry
  · have h2 : (o.pnext j).2 = false := by
      simpa [handleAttempt, hc] using hk
    simp [handleAttempt, hc, hpol j h2]
  · simp [handleAttempt, hc]

theorem runLoop_zero_eq {V : Type} [Inhabited V] (m : RunnerM V)
    (o : RunOracle V) (k j : Nat) :
    runLoop m o 0 k j =
      { result := default, err := none, events := [], rounds := [],
        exit := ExitKind.fuelOut } := rfl

theorem runLoop_guard_eq {V : Type} [Inhabited V] (m : RunnerM V)
    (o : RunOracle V) (n k j : Nat) (e : GoError)
    (hg : o.guardErr k = some e) :
    runLoop m o (n + 1) k j =
      { result := default, err := none, events := [], rounds := [],
        exit := ExitKind.guard } := by
  simp [runLoop, hg]

theorem runLoop_decision_eq {V : Type} [Inhabited V] (m : RunnerM V)
    (o : RunOracle V) (n k j : Nat) (hg : o.guardErr k = none)
    (hk : (handleAttempt m o j k (o.task k).1 (o.task k).2).keepTrying =
      false) :
    runLoop m o (n + 1) k j =
      { result := (o.task k).1, err := (o.task k).2,
        events := REvent.taskCall k (o.task k).1 (o.task k).2 ::
          (handleAttempt m o j k (o.task k).1 (o.task k).2).events,
        rounds := [roundAt m o j k none],
        exit := ExitKind.decision } := by
  simp [runLoop, roundAt, hg, hk]

theorem runLoop_cancel_eq {V : Type} [Inhabited V] (m : RunnerM V)
    (o : RunOracle V) (n k j : Nat) (e : GoError)
    (hg : o.guardErr k = none)
    (hk : (handleAttempt m o j k (o.task k).1 (o.task k).2).keepTrying =
      true)
    (hw : o.waitOutcome k = some e) :
    runLoop m o (n + 1) k j =
      { result := default, err := some e,
        events := REvent.taskCall k (o.task k).1 (o.task k).2 ::
          ((handleAttempt m o j k (o.task k).1 (o.task k).2).events ++
            [REvent.waitCancelled
              (handleAttempt m o j k (o.task k).1 (o.task k).2).interval e]),
        rounds := [roundAt m o j k (some (some e))],
        exit := ExitKind.cancelledWait } := by
  simp [runLoop, roundAt, hg, hk, hw]

theorem runLoop_fired_eq {V : Type} [Inhabited V] (m : RunnerM V)
    (o : RunOracle V) (n k j : Nat) (hg : o.guardErr k = none)
    (hk : (handleAttempt m o j k (o.task k).1 (o.task k).2).keepTrying =
      true)
    (hw : o.waitOutcome k = none) :
    runLoop m o (n + 1) k j =
      { result := (runLoop m o n (k + 1)
          (handleAttempt m o j k (o.task k).1 (o.task k).2).jNext).result,
        err := (runLoop m o n (k + 1)
          (handleAttempt m o j k (o.task k).1 (o.task k).2).jNext).err,
        events := REvent.taskCall k (o.task k).1 (o.task k).2 ::
          ((handleAttempt m o j k (o.task k).1 (o.task k).2).events ++
            [REvent.waitFired
              (handleAttempt m o j k (o.task k).1 (o.task k).2).interval] ++
            (runLoop m o n (k + 1)
              (handleAttempt m o j k (o.task k).1 (o.task k).2).jNext).events),
        rounds := roundAt m o j k (some none) ::
          (runLoop m o n (k + 1)
            (handleAttempt m o j k (o.task k).1 (o.task k).2).jNext).rounds,
        exit := (runLoop m o n (k + 1)
          (handleAttempt m o j k (o.task k).1 (o.task k).2).jNext).exit } := by
  simp [runLoop, roundAt, hg, hk, hw]

theorem runLoop_exit_cancelledWait {V : Type} [Inhabited V] (m : RunnerM V)
    (o : RunOracle V) :
    ∀ (fuel k j : Nat),
      (runLoop m o fuel k j).exit = ExitKind.cancelledWait →
      (runLoop m o fuel k j).result = default ∧
      ∃ k2 e, o.waitOutcome k2 = some e ∧
        (runLoop m o fuel k j).err = some e := by
  intro fuel
  induction fuel with
  | zero =>
    intro k j h
    rw [runLoop_zero_eq] at h
    simp at h
  | succ n ih =>
    intro k j h
    cases hg : o.guardErr k with
    | some e0 =>
      rw [runLoop_guard_eq m o n k j e0 hg] at h
      simp at h
    | none =>
      cases hk :
          (handleAttempt m o j k (o.task k).1 (o.task k).2).keepTrying with
      | true =>
        cases hw : o.waitOutcome k with
        | some e =>
          rw [runLoop_cancel_eq m o n k j e hg hk hw]
          exact ⟨rfl, k, e, hw, rfl⟩
        | none =>
          rw [runLoop_fired_eq m o n k j hg hk hw] at h ⊢
          exact ih (k + 1) _ h
      | false =>
        rw [runLoop_decision_eq m o n k j hg hk] at h
        simp at h

theorem runLoop_events_flatten {V : Type} [Inhabited V] (m : RunnerM V)
    (o : RunOracle V) :
    ∀ (fuel k j : Nat),
      (runLoop m o fuel k j).events =
        ((runLoop m o fuel k j).rounds.map (RoundInfo.events m)).flatten := by
  intro fuel
  induction fuel with
  | zero =>
    intro k j
    rw [runLoop_zero_eq]
    simp
  | succ n ih =>
    intro k j
    cases hg : o.guardErr k with
    | some e0 =>
      rw [runLoop_guard_eq m o n k j e0 hg]
      simp
    | none =>
      cases hk :
          (handleAttempt m o j k (o.task k).1 (o.task k).2).keepTrying with
      | true =>
        cases hw : o.waitOutcome k with
        | some e =>
          rw [runLoop_cancel_eq m o n k j e hg hk hw]
          simp [RoundInfo.events, roundAt, handleAttempt_events_eq,
            handleAttempt_interval_eq]
        | none =>
          rw [runLoop_fired_eq m o n k j hg hk hw]
          simp [RoundInfo.events, roundAt, handleAttempt_events_eq,
            handleAttempt_interval_eq, ih (k + 1)]
      | false =>
        rw [runLoop_decision_eq m o n k j hg hk]
        simp [RoundInfo.events, roundAt, handleAttempt_events_eq,
          handleAttempt_interval_eq]

theorem runLoop_rounds_fields {V : Type} [Inhabited V] (m : RunnerM V)
    (o : RunOracle V) :
    ∀ (fuel k j : Nat), ∀ rd ∈ (runLoop m o fuel k j).rounds,
      rd.attempt.result = rd.result ∧ rd.attempt.err = rd.err ∧
      rd.attempt.retries = rd.k ∧
      rd.attempt.next =
        (match rd.pcall with
          | some p => p.1
          | none => 0) ∧
      (rd.pcall = none ↔ CheckRetry rd.result rd.err m.shouldRetry = false) := by
  intro fuel
  induction fuel with
  | zero =>
    intro k j rd hrd
    rw [runLoop_zero_eq] at hrd
    simp at hrd
  | succ n ih =>
    intro k j rd hrd
    cases hg : o.guardErr k with
    | some e0 =>
      rw [runLoop_guard_eq m o n k j e0 hg] at hrd
      simp at hrd
    | none =>
      cases hk :
          (handleAttempt m o j k (o.task k).1 (o.task k).2).keepTrying with
      | true =>
        cases hw : o.waitOutcome k with
        | some e =>
          rw [runLoop_cancel_eq m o n k j e hg hk hw] at hrd
          simp only [List.mem_singleton] at hrd
          subst hrd
          simp only [roundAt]
          exact handleAttempt_attempt_fields m o j k (o.task k).1 (o.task k).2
        | none =>
          rw [runLoop_fired_eq m o n k j hg hk hw] at hrd
          simp only [List.mem_cons] at hrd
          rcases hrd with hrd | hrd
          · subst hrd
            simp only [roundAt]
            exact handleAttempt_attempt_fields m o j k (o.task k).1 (o.task k).2
          · exact ih (k + 1) _ rd hrd
      | false =>
        rw [runLoop_decision_eq m o n k j hg hk] at hrd
        simp only [List.mem_singleton] at hrd
        subst hrd
        simp only [roundAt]
        exact handleAttempt_attempt_fields m o j k (o.task k).1 (o.task k).2

theorem runLoop_decision_last {V : Type} [Inhabited V] (m : RunnerM V)
    (o : RunOracle V)
    (hpol : ∀ i, (o.pnext i).2 = false → (o.pnext i).1 = 0) :
    ∀ (fuel k j : Nat), (runLoop m o fuel k j).exit = ExitKind.decision →
      ∃ rds rd, (runLoop m o fuel k j).rounds = rds ++ [rd] ∧
        rd.attempt.next = 0 := by
  intro fuel
  induction fuel with
  | zero =>
    intro k j h
    rw [runLoop_zero_eq] at h
    simp at h
  | succ n ih =>
    intro k j h
    cases hg : o.guardErr k with
    | some e0 =>
      rw [runLoop_guard_eq m o n k j e0 hg] at h
      simp at h
    | none =>
      cases hk :
          (handleAttempt m o j k (o.task k).1 (o.task k).2).keepTrying with
      | true =>
        cases hw : o.waitOutcome k with
        | some e =>
          rw [runLoop_cancel_eq m o n k j e hg hk hw] at h
          simp at h
        | none =>
          rw [runLoop_fired_eq m o n k j hg hk hw] at h ⊢
          obtain ⟨rds, rd, hr, hn⟩ := ih (k + 1) _ h
          rw [hr]
          exact ⟨_ :: rds, rd, rfl, hn⟩
      | false =>
        rw [runLoop_decision_eq m o n k j hg hk]
        exact ⟨[], _, rfl,
          handleAttempt_next_zero_of_stop m o j k (o.task k).1
            (o.task k).2 hpol hk⟩

/-! ## Runner claim theorems -/

/-- C2 (amended): whenever `Run` exits because the scope was cancelled
during a wait between attempts, it returns the zero value of `V` and the
error the scope reported; when the scope is already cancelled before any
attempt has run, the loop guard exits immediately and `Run` returns the
zero value of `V` together with a nil error, not the scope's error. -/
theorem run_cancellation_outcomes {V : Type} [Inhabited V] (m : RunnerM V)
    (o : RunOracle V) (fuel : Nat) :
    ((runModel m o fuel).exit = ExitKind.cancelledWait →
      (runModel m o fuel).result = default ∧
      ∃ k e, o.waitOutcome k = some e ∧ (runModel m o fuel).err = some e) ∧
    (∀ e, o.guardErr 0 = some e → 0 < fuel →
      (runModel m o fuel).exit = ExitKind.guard ∧
      (runModel m o fuel).result = default ∧
      (runModel m o fuel).err = none) := by
  constructor
  · intro h
    exact runLoop_exit_cancelledWait m o fuel 0 0 h
  · intro e hg hf
    cases fuel with
    | zero => omega
    | succ n =>
      unfold runModel
      simp [runLoop, hg]

/-- Witness for C2 at a concrete cancel-during-first-wait scenario: the
runner returns the zero value 0 together with the scope's error. -/
theorem run_cancellation_outcomes_witness :
    (runModel c2Runner c2OracleWait 3).result = 0 ∧
    ∃ k e, c2OracleWait.waitOutcome k = some e ∧
      (runModel c2Runner c2OracleWait 3).err = some e :=
  (run_cancellation_outcomes c2Runner c2OracleWait 3).1 rfl

/-- Counterexample for C2 as stated: with the scope already cancelled
before any attempt, `Run` exits through the loop guard and returns a nil
error, not the scope's error. -/
theorem run_precancelled_nil_error :
    (runModel c2Runner c2OracleGuard 5).exit = ExitKind.guard ∧
    c2OracleGuard.guardErr 0 = some cancelErr ∧
    (runModel c2Runner c2OracleGuard 5).result = 0 ∧
    (runModel c2Runner c2OracleGuard 5).err = none ∧
    (none : Option GoError) ≠ some cancelErr := by
  refine ⟨rfl, rfl, rfl, rfl, by decide⟩

/-- C5 (amended): in every execution of `Run`, the event trace decomposes
into one block per task invocation — the task call, then the policy
consultation (made exactly when `CheckRetry` allowed a retry), then one
dispatch per registered observer in registration order, then the wait —
with the dispatched record carrying the invocation's result, error, retry
count, and the freshly computed interval (zero when the policy was not
consulted); and whenever `Run` exits by decision (policy or predicate, not
cancellation) the final dispatched attempt has `next = 0`, provided the
policy honors its documented contract that a false flag comes with a zero
duration.  When `Run` exits because cancellation interrupts a wait, the
final dispatched attempt instead carries the positive interval that was
being waited out. -/
theorem run_observer_dispatch {V : Type} [Inhabited V] (m : RunnerM V)
    (o : RunOracle V) (fuel : Nat)
    (hpol : ∀ i, (o.pnext i).2 = false → (o.pnext i).1 = 0) :
    ((runModel m o fuel).events =
      ((runModel m o fuel).rounds.map (RoundInfo.events m)).flatten) ∧
    (∀ rd ∈ (runModel m o fuel).rounds,
      rd.attempt.result = rd.result ∧ rd.attempt.err = rd.err ∧
      rd.attempt.retries = rd.k ∧
      rd.attempt.next =
        (match rd.pcall with
          | some p => p.1
          | none => 0) ∧
      (rd.pcall = none ↔ CheckRetry rd.result rd.err m.shouldRetry = false)) ∧
    ((runModel m o fuel).exit = ExitKind.decision →
      ∃ rds rd, (runModel m o fuel).rounds = rds ++ [rd] ∧
        rd.attempt.next = 0) :=
  ⟨runLoop_events_flatten m o fuel 0 0,
    runLoop_rounds_fields m o fuel 0 0,
    runLoop_decision_last m o hpol fuel 0 0⟩

/-- Witness for C5: in the concrete three-attempt scenario the trace
decomposes round by round as the theorem states. -/
theorem run_observer_dispatch_witness :
    (runModel c5Runner c5Oracle 10).events =
      ((runModel c5Runner c5Oracle 10).rounds.map
        (RoundInfo.events c5Runner)).flatten :=
  (run_observer_dispatch c5Runner c5Oracle 10
    (by intro i h; simp [c5Oracle] at h)).1

/-- Counterexample for C5 as stated: in the cancel-during-third-wait
scenario (mirroring the repository's own runner test) the final dispatched
attempt carries `next = 5`, not `next = 0`. -/
theorem run_final_attempt_positive_next :
    (runModel c5Runner c5Oracle 10).exit = ExitKind.cancelledWait ∧
    ((runModel c5Runner c5Oracle 10).rounds.map
      (fun rd => rd.attempt.next)) = [5, 5, 5] ∧
    (5 : Int) ≠ 0 := by
  refine ⟨rfl, rfl, by decide⟩

/-- C4 (amended): configuring the HTTP client with `WithRunner` stores the
given runner unchanged — no response-cleanup observer is appended
automatically; the caller must register `CleanupResponse` on the runner, at
which point it drains, closes, and nulls the body of every non-final
attempt's response and leaves the final attempt's response untouched. -/
theorem withRunner_stores_runner_unchanged
    (r : RunnerM (Option HTTPResponse)) :
    NewClient [WithRunner r] = some (clientWithRunner r) ∧
    (∀ c : ClientM, (WithRunner r c).1.runner = some r ∧
      (WithRunner r c).2 = none) ∧
    (∀ (a : Attempt (Option HTTPResponse)) (resp : HTTPResponse)
        (b : BodyState), Attempt.done a = false → a.result = some resp →
      resp.body = some b →
      CleanupResponse a =
        (some { statusCode := resp.statusCode, body := none },
          some { drained := true, closed := true })) ∧
    (∀ a : Attempt (Option HTTPResponse), Attempt.done a = true →
      CleanupResponse a = (a.result, none)) := by
  refine ⟨rfl, fun c => ⟨rfl, rfl⟩, ?_, ?_⟩
  · intro a resp b hd h hb
    simp [CleanupResponse, h, hb, hd]
  · intro a hd
    simp [CleanupResponse, hd]

/-- Witness for C4: the observerless runner is stored exactly as given,
and `CleanupResponse` cleans a non-final attempt's open response body. -/
theorem withRunner_stores_runner_unchanged_witness :
    NewClient [WithRunner r0C4] = some (clientWithRunner r0C4) ∧
    CleanupResponse cleanupAttemptEx =
      (some { statusCode := 503, body := none },
        some { drained := true, closed := true }) := by
  have h := withRunner_stores_runner_unchanged r0C4
  exact ⟨h.1, h.2.2.1 cleanupAttemptEx cleanupRespEx cleanupBodyEx
    (by decide) rfl rfl⟩

/-- Counterexample for C4 as stated: a client configured for retries with
`WithRunner` holds a runner whose observer list is empty — no cleanup
observer was installed automatically. -/
theorem client_runner_without_observer :
    NewClient [WithRunner r0C4] = some clientC4 ∧
    clientC4.runner = some r0C4 ∧
    r0C4.onAttempts = [] :=
  ⟨rfl, rfl, rfl⟩

end RetryVerify
